import Mathlib

/-!
Verification of the inventory-to-SBOM assembly engine of
cyclonedx-gentoo-linux.

The embedding mirrors `src/cyclonedx.rs` (the CycloneDX document model and
`Bom::with_tool_version`) and `src/main.rs` (`generate_bom`, the assembly
pipeline).  The external eix reader (the `eix` crate) is modelled as an
environment function from a path to an `Except`-value holding the database
content; the ambient sources of time and randomness (`Utc::now`,
`Uuid::new_v4`) are passed in as explicit string parameters, as is the
compile-time `CARGO_PKG_VERSION` value.
-/

/-- `std::io::Error`, treated as an opaque error value carried unchanged. -/
abbrev IoError := String

/-- One version entry of an eix package record, as exposed by the external
reader: installed flag, version string and provenance repository name
(`v.is_installed()`, `v.version_string`, `v.reponame` in `generate_bom`). -/
structure EixVersion where
  is_installed : Bool
  version_string : String
  reponame : String
deriving DecidableEq, Repr

/-- One package record of the eix database, as consumed by `generate_bom`:
name, description, the raw space-separated license string, and the list of
versions. -/
structure EixPackage where
  name : String
  description : String
  licenses : String
  versions : List EixVersion
deriving DecidableEq, Repr

/-- One category of the eix database together with the packages the reader
yields inside it (`reader.next_category` / `reader.current_category` /
`reader.read_package` iteration order). -/
structure EixCategory where
  name : String
  packages : List EixPackage
deriving DecidableEq, Repr

/-- `License` of `src/cyclonedx.rs`: the name of a license. -/
structure License where
  name : String
deriving DecidableEq, Repr

/-- `LicenseChoice` of `src/cyclonedx.rs`: wraps one `License`. -/
structure LicenseChoice where
  license : License
deriving DecidableEq, Repr

/-- `Component` of `src/cyclonedx.rs`: one SBOM component.  The field
`component_type` is serialized under the JSON key `type`. -/
structure Component where
  component_type : String
  group : String
  name : String
  version : String
  description : String
  licenses : List LicenseChoice
  purl : String
deriving DecidableEq, Repr

/-- `Tool` of `src/cyclonedx.rs`: the generating-tool descriptor. -/
structure Tool where
  vendor : String
  name : String
  version : String
deriving DecidableEq, Repr

/-- `Metadata` of `src/cyclonedx.rs`: timestamp, tools, and the optional
top-level component (serde: `skip_serializing_if = Option.isNone` on
`component`). -/
structure Metadata where
  timestamp : String
  tools : List Tool
  component : Option Component
deriving DecidableEq, Repr

/-- `Bom` of `src/cyclonedx.rs`: the top-level CycloneDX document. -/
structure Bom where
  bom_format : String
  spec_version : String
  serial_number : String
  version : Nat
  metadata : Metadata
  components : List Component
deriving DecidableEq, Repr

/-- `Bom::with_tool_version` of `src/cyclonedx.rs`.  The ambient values
`Utc::now().to_rfc3339()` and `Uuid::new_v4()` (already rendered to its
textual form) enter as the parameters `now` and `uuid`. -/
def Bom.with_tool_version (tool_version now uuid : String) : Bom :=
  { bom_format := "CycloneDX"
    spec_version := "1.7"
    serial_number := "urn:uuid:" ++ uuid
    version := 1
    metadata :=
      { timestamp := now
        tools := [{ vendor := "cyclonedx-gentoo", name := "cyclonedx-gentoo",
                    version := tool_version }]
        component := none }
    components := [] }

/-- `Bom::new` of `src/cyclonedx.rs`: delegates to `with_tool_version` at the
compile-time `CARGO_PKG_VERSION` string, which enters as a parameter. -/
def Bom.new (cargo_pkg_version now uuid : String) : Bom :=
  Bom.with_tool_version cargo_pkg_version now uuid

/-- `Args` of `src/main.rs`: the parsed command-line arguments. -/
structure Args where
  group : Option String
  file : Option String
  name : Option String
  only_master : Bool
  version : Option String
deriving DecidableEq, Repr

/-- `DEFAULT_EIX_DB_PATH` of `src/main.rs`. -/
def DEFAULT_EIX_DB_PATH : String := "/var/cache/eix/portage.eix"

/-- The opened eix database as `generate_bom` observes it through the external
reader: the result of `db.read_header(0)` and the category/package/version
content the `PackageReader` iteration yields.  An `Except.error` in `content`
stands for a read failure somewhere during the iteration, which
`generate_bom` propagates with `?` before any document is returned. -/
structure Database where
  header : Except IoError Unit
  content : Except IoError (List EixCategory)

/-- Split a character list at every occurrence of `sep`, keeping empty
pieces, as Rust's `str::split(char)` does: `"a  b"` gives `["a", "", "b"]`
and the empty string gives `[""]`. -/
def split_char (sep : Char) : List Char → List (List Char)
  | [] => [[]]
  | c :: cs =>
    if c = sep then [] :: split_char sep cs
    else
      match split_char sep cs with
      | [] => [[c]]
      | t :: ts => (c :: t) :: ts

/-- `s.split(' ')` of the Rust source: the pieces of `s` between single
spaces, empty pieces included. -/
def split_spaces (s : String) : List String :=
  (split_char ' ' s.data).map String.mk

/-- The license loop of `generate_bom` (`src/main.rs` lines 73-82): split the
raw license string on single spaces, skip empty tokens, and wrap each
surviving token into a `LicenseChoice`. -/
def licenses_of (s : String) : List LicenseChoice :=
  ((split_spaces s).filter (fun lic => lic ≠ "")).map
    (fun lic => { license := { name := lic } })

/-- The `format!` call of `generate_bom` (`src/main.rs` lines 91-94) building
the package-url string. -/
def purl_of (category name version reponame : String) : String :=
  "pkg:gentoo/" ++ category ++ "/" ++ name ++ "@" ++ version ++
    "?repository=" ++ reponame

/-- The `Component` literal of `generate_bom` (`src/main.rs` lines 84-95)
built for one installed version of one package. -/
def version_component (category : String) (pkg : EixPackage) (v : EixVersion) :
    Component :=
  { component_type := "library"
    group := category
    name := pkg.name
    version := v.version_string
    description := pkg.description
    licenses := licenses_of pkg.licenses
    purl := purl_of category pkg.name v.version_string v.reponame }

/-- The nested while/for loop of `generate_bom` (`src/main.rs` lines 68-100):
for every category, every package, every version with the installed flag set,
one component, pushed in iteration order. -/
def inventory_components (cats : List EixCategory) : List Component :=
  cats.flatMap (fun cat =>
    cat.packages.flatMap (fun pkg =>
      (pkg.versions.filter (fun v => v.is_installed)).map
        (version_component cat.name pkg)))

/-- The `Component` literal of `generate_bom` (`src/main.rs` lines 56-64)
for the optional top-level (master) component. -/
def top_level_component (args : Args) : Component :=
  { component_type := "application"
    group := args.group.getD ""
    name := args.name.getD ""
    version := args.version.getD ""
    description := ""
    licenses := []
    purl := "" }

/-- Lines 49-65 of `src/main.rs`: choose the tool version for the document
skeleton, then attach the top-level component when any of group, name or
version was supplied. -/
def bom_with_metadata (args : Args) (tool_version : Option String)
    (cargo_pkg_version now uuid : String) : Bom :=
  let bom :=
    match tool_version with
    | some v => Bom.with_tool_version v now uuid
    | none => Bom.new cargo_pkg_version now uuid
  if args.group.isSome || args.name.isSome || args.version.isSome then
    { bom with metadata := { bom.metadata with
        component := some (top_level_component args) } }
  else bom

/-- `generate_bom` of `src/main.rs`.  `fs` models `Database::open_read`
together with the subsequent reads: opening the path either fails with an
I/O error or yields the `Database` view above.  The `?` operators of the Rust
code become the `Except.error` matches; the component loop runs only when
`only_master` is not set, exactly as in the source. -/
def generate_bom (fs : String → Except IoError Database) (args : Args)
    (tool_version : Option String) (cargo_pkg_version now uuid : String) :
    Except IoError Bom :=
  match fs (args.file.getD DEFAULT_EIX_DB_PATH) with
  | .error e => .error e
  | .ok db =>
    match db.header with
    | .error e => .error e
    | .ok _ =>
      let bom := bom_with_metadata args tool_version cargo_pkg_version now uuid
      if args.only_master then .ok bom
      else
        match db.content with
        | .error e => .error e
        | .ok cats =>
          .ok { bom with components := bom.components ++ inventory_components cats }

/-! ### A purl parser, modelled from the spec

The repository itself exposes no purl parser; the spec's round-trip property
requires re-parsing the generated identifier.  The parser below follows the
spec's stated format `pkg:gentoo/<category>/<name>@<version>` with an optional
`?repository=<name>` query suffix: it strips the fixed scheme prefix, cuts the
query off at the first question mark, takes the version after the last at-sign
and the category before the first slash. -/

/-- Split a character list at the first occurrence of `sep`, returning the
parts before and after it, or `none` when `sep` does not occur. -/
def splitFirst (sep : Char) : List Char → Option (List Char × List Char)
  | [] => none
  | c :: cs =>
    if c = sep then some ([], cs)
    else
      match splitFirst sep cs with
      | none => none
      | some p => some (c :: p.1, p.2)

/-- Split a character list at the last occurrence of `sep`. -/
def splitLast (sep : Char) (l : List Char) : Option (List Char × List Char) :=
  match splitFirst sep l.reverse with
  | none => none
  | some p => some (p.2.reverse, p.1.reverse)

/-- Remove the fixed head `p` from `s`, or fail when `s` does not start
with it. -/
def stripHead (p s : List Char) : Option (List Char) :=
  if s.take p.length = p then some (s.drop p.length) else none

/-- Modelled from the spec: re-parse a package-url of the form
`pkg:gentoo/<category>/<name>@<version>` with optional `?repository=<name>`
suffix, recovering category, name and version.  The repository has no parser
of its own; the spec's round-trip property presupposes one. -/
def parse_purl (s : String) : Option (String × String × String) :=
  match stripHead "pkg:gentoo/".data s.data with
  | none => none
  | some rest =>
    let body :=
      match splitFirst '?' rest with
      | some p => p.1
      | none => rest
    match splitLast '@' body with
    | none => none
    | some p =>
      match splitFirst '/' p.1 with
      | none => none
      | some q => some (String.mk q.1, String.mk q.2, String.mk p.2)

/-! ### The JSON emitter, as serde derives it

`src/cyclonedx.rs` derives `Serialize` for every struct; the only non-default
attributes are the `rename` of `component_type` to `type`, the renames of the
`Bom` header fields, and `skip_serializing_if = "Option::is_none"` on
`Metadata.component`.  The functions below model the derived serializers:
fields in declaration order, the `component` pair omitted when absent. -/

/-- A JSON value. -/
inductive Json where
  | null : Json
  | str : String → Json
  | num : Int → Json
  | arr : List Json → Json
  | obj : List (String × Json) → Json

/-- Serialization of `License`. -/
def License.toJson (l : License) : Json :=
  .obj [("name", .str l.name)]

/-- Serialization of `LicenseChoice`. -/
def LicenseChoice.toJson (lc : LicenseChoice) : Json :=
  .obj [("license", lc.license.toJson)]

/-- Serialization of `Component`; `component_type` is renamed to `type`. -/
def Component.toJson (c : Component) : Json :=
  .obj [("type", .str c.component_type),
        ("group", .str c.group),
        ("name", .str c.name),
        ("version", .str c.version),
        ("description", .str c.description),
        ("licenses", .arr (c.licenses.map LicenseChoice.toJson)),
        ("purl", .str c.purl)]

/-- Serialization of `Tool`. -/
def Tool.toJson (t : Tool) : Json :=
  .obj [("vendor", .str t.vendor),
        ("name", .str t.name),
        ("version", .str t.version)]

/-- Serialization of `Metadata`: the `component` key is omitted entirely when
the option is absent (`skip_serializing_if = "Option::is_none"`), never
emitted as `null`. -/
def Metadata.toJson (m : Metadata) : Json :=
  .obj ([("timestamp", .str m.timestamp),
         ("tools", .arr (m.tools.map Tool.toJson))] ++
        (match m.component with
         | none => []
         | some c => [("component", c.toJson)]))

/-- Serialization of `Bom` with the serde renames of the header fields. -/
def Bom.toJson (b : Bom) : Json :=
  .obj [("bomFormat", .str b.bom_format),
        ("specVersion", .str b.spec_version),
        ("serialNumber", .str b.serial_number),
        ("version", .num b.version),
        ("metadata", b.metadata.toJson),
        ("components", .arr (b.components.map Component.toJson))]

/-- The keys of a JSON object (empty for non-objects). -/
def json_keys : Json → List String
  | .obj l => l.map (fun kv => kv.1)
  | _ => []

/-- Shape of the textual form of a version-4 UUID as `Uuid::new_v4` renders
it: 36 characters, hyphens at positions 8, 13, 18 and 23, the version nibble
`4` at position 14, the variant nibble in `8|9|a|b` at position 19, lowercase
hex digits elsewhere. -/
def uuid_v4_shape (s : String) : Bool :=
  let cs := s.data
  cs.length = 36 &&
  (List.range 36).all (fun i =>
    match cs.get? i with
    | none => false
    | some c =>
      if i = 8 || i = 13 || i = 18 || i = 23 then c = '-'
      else if i = 14 then c = '4'
      else if i = 19 then c = '8' || c = '9' || c = 'a' || c = 'b'
      else c.isDigit || ('a' ≤ c && c ≤ 'f'))

/-- The record sequence the reader yields, flattened in iteration order:
one `(category name, package, version)` triple per version entry, categories
outermost, exactly as the nested loop of `generate_bom` visits them. -/
def all_records (cats : List EixCategory) :
    List (String × EixPackage × EixVersion) :=
  cats.flatMap (fun cat =>
    cat.packages.flatMap (fun pkg =>
      pkg.versions.map (fun v => (cat.name, pkg, v))))

/-! ### Concrete test fixtures, used by the witnesses -/

/-- An installed sample version. -/
def sample_version : EixVersion :=
  { is_installed := true, version_string := "1.2.3", reponame := "gentoo" }

/-- A non-installed sample version. -/
def sample_version_out : EixVersion :=
  { is_installed := false, version_string := "9.9", reponame := "gentoo" }

/-- A sample package; the double space in the license string exercises the
empty-token drop. -/
def sample_package : EixPackage :=
  { name := "mock-pkg", description := "desc", licenses := "MIT  Apache-2.0",
    versions := [sample_version, sample_version_out] }

/-- A sample category. -/
def sample_category : EixCategory :=
  { name := "app-misc", packages := [sample_package] }

/-- A filesystem in which every path opens to the sample inventory. -/
def fs_sample : String → Except IoError Database :=
  fun _ => .ok { header := .ok (), content := .ok [sample_category] }

/-- A filesystem in which every open fails. -/
def fs_fail : String → Except IoError Database :=
  fun _ => .error "open failed"

/-- A filesystem in which opening succeeds but the header read fails. -/
def fs_header_fail : String → Except IoError Database :=
  fun _ => .ok { header := .error "header failed", content := .ok [] }

/-- Sample arguments with all top-level fields supplied. -/
def args_sample : Args :=
  { group := some "test-group", file := some "testdata/portage.eix",
    name := some "test-name", only_master := false, version := some "1.2.3" }

/-- Arguments with `only-master` set and nothing else. -/
def args_master : Args :=
  { group := none, file := none, name := none, only_master := true,
    version := none }

/-- Arguments with nothing supplied. -/
def args_plain : Args :=
  { group := none, file := none, name := none, only_master := false,
    version := none }

/-- Arguments supplying only a top-level name, with `only-master` set. -/
def args_name_only : Args :=
  { group := none, file := none, name := some "x", only_master := true,
    version := none }

/-! ### Splitting lemmas -/

/-- `splitFirst` cuts at the first occurrence of the separator. -/
theorem splitFirst_eq (sep : Char) (l a b : List Char)
    (hl : l = a ++ sep :: b) (ha : sep ∉ a) :
    splitFirst sep l = some (a, b) := by
  subst hl
  induction a with
  | nil => simp [splitFirst]
  | cons c cs ih =>
    simp only [List.mem_cons, not_or] at ha
    have hc : ¬c = sep := fun h => ha.1 h.symm
    simp [splitFirst, hc, ih ha.2]

/-- `splitLast` cuts at the last occurrence of the separator. -/
theorem splitLast_eq (sep : Char) (l a b : List Char)
    (hl : l = a ++ sep :: b) (hb : sep ∉ b) :
    splitLast sep l = some (a, b) := by
  subst hl
  have h : (a ++ sep :: b).reverse = b.reverse ++ sep :: a.reverse := by
    simp [List.reverse_append]
  have h2 : splitFirst sep (b.reverse ++ sep :: a.reverse) =
      some (b.reverse, a.reverse) :=
    splitFirst_eq sep _ _ _ rfl (by simpa using hb)
  simp [splitLast, h, h2]

/-- `stripHead` removes an exact head. -/
theorem stripHead_eq (p l r : List Char) (hl : l = p ++ r) :
    stripHead p l = some r := by
  subst hl
  simp [stripHead, List.take_left, List.drop_left]

/-- The character list of a generated purl, decomposed around the scheme
head, the category/name separator, the version separator and the query
separator. -/
theorem purl_of_data (c n v r : String) :
    (purl_of c n v r).data =
      "pkg:gentoo/".data ++
        (((c.data ++ '/' :: n.data) ++ '@' :: v.data) ++
          '?' :: ("repository=".data ++ r.data)) := by
  have h1 : ("/" : String).data = ['/'] := rfl
  have h2 : ("@" : String).data = ['@'] := rfl
  have h3 : ("?repository=" : String).data = '?' :: "repository=".data := rfl
  simp [purl_of, String.data_append, h1, h2, h3]

/-- Round-trip: parsing a generated purl recovers category, name and version,
provided the category contains no slash and no question mark, the name no
question mark, and the version no question mark and no at-sign. -/
theorem parse_purl_purl_of (c n v r : String)
    (hc1 : '/' ∉ c.data) (hc2 : '?' ∉ c.data) (hn : '?' ∉ n.data)
    (hv1 : '?' ∉ v.data) (hv2 : '@' ∉ v.data) :
    parse_purl (purl_of c n v r) = some (c, n, v) := by
  have e1 : stripHead "pkg:gentoo/".data (purl_of c n v r).data =
      some (((c.data ++ '/' :: n.data) ++ '@' :: v.data) ++
        '?' :: ("repository=".data ++ r.data)) := by
    refine stripHead_eq _ _ _ ?_
    exact purl_of_data c n v r
  have e2 : splitFirst '?'
      ((((c.data ++ '/' :: n.data) ++ '@' :: v.data)) ++
        '?' :: ("repository=".data ++ r.data)) =
      some ((c.data ++ '/' :: n.data) ++ '@' :: v.data,
        "repository=".data ++ r.data) := by
    refine splitFirst_eq _ _ _ _ rfl ?_
    intro hmem
    rcases List.mem_append.mp hmem with h | h
    · rcases List.mem_append.mp h with h2 | h2
      · exact hc2 h2
      · rcases List.mem_cons.mp h2 with h3 | h3
        · exact absurd h3 (by decide)
        · exact hn h3
    · rcases List.mem_cons.mp h with h2 | h2
      · exact absurd h2 (by decide)
      · exact hv1 h2
  have e3 : splitLast '@' ((c.data ++ '/' :: n.data) ++ '@' :: v.data) =
      some (c.data ++ '/' :: n.data, v.data) :=
    splitLast_eq _ _ _ _ rfl hv2
  have e4 : splitFirst '/' (c.data ++ '/' :: n.data) =
      some (c.data, n.data) :=
    splitFirst_eq _ _ _ _ rfl hc1
  unfold parse_purl
  rw [e1]
  dsimp only
  rw [e2]
  dsimp only
  rw [e3]
  dsimp only
  rw [e4]

/-! ### Structural lemmas about the pipeline -/

/-- `bom_with_metadata` never touches the component list: it stays the empty
list `with_tool_version` put there. -/
theorem bom_with_metadata_components (args : Args) (tv : Option String)
    (cpv now uuid : String) :
    (bom_with_metadata args tv cpv now uuid).components = [] := by
  unfold bom_with_metadata
  cases tv <;> dsimp <;> split <;> rfl

/-- The top-level component slot after `bom_with_metadata`: filled exactly
when one of group, name, version was supplied. -/
theorem bom_with_metadata_component (args : Args) (tv : Option String)
    (cpv now uuid : String) :
    (bom_with_metadata args tv cpv now uuid).metadata.component =
      (if args.group.isSome || args.name.isSome || args.version.isSome
        then some (top_level_component args) else none) := by
  unfold bom_with_metadata
  cases tv <;> dsimp <;> split <;> rfl

/-- Inversion for a successful `generate_bom` run: the metadata is the one
`bom_with_metadata` built, and the component list is empty or comes from
`inventory_components` of a successfully read inventory. -/
theorem generate_bom_ok_cases (fs : String → Except IoError Database)
    (args : Args) (tv : Option String) (cpv now uuid : String) (bom : Bom)
    (hok : generate_bom fs args tv cpv now uuid = Except.ok bom) :
    bom.metadata = (bom_with_metadata args tv cpv now uuid).metadata ∧
    (bom.components = [] ∨
      ∃ db cats, fs (args.file.getD DEFAULT_EIX_DB_PATH) = Except.ok db ∧
        db.content = Except.ok cats ∧
        bom.components = inventory_components cats) := by
  cases hfs : fs (args.file.getD DEFAULT_EIX_DB_PATH) with
  | error e => simp [generate_bom, hfs] at hok
  | ok db =>
    cases hh : db.header with
    | error e => simp [generate_bom, hfs, hh] at hok
    | ok u =>
      by_cases hm : args.only_master = true
      · have hb : bom = bom_with_metadata args tv cpv now uuid := by
          simp [generate_bom, hfs, hh, hm] at hok
          exact hok.symm
        subst hb
        exact ⟨rfl, Or.inl (bom_with_metadata_components args tv cpv now uuid)⟩
      · cases hc : db.content with
        | error e => simp [generate_bom, hfs, hh, hm, hc] at hok
        | ok cats =>
          have hb : bom =
              { bom_with_metadata args tv cpv now uuid with
                components :=
                  (bom_with_metadata args tv cpv now uuid).components ++
                    inventory_components cats } := by
            simp [generate_bom, hfs, hh, hm, hc] at hok
            exact hok.symm
          subst hb
          refine ⟨rfl, Or.inr ⟨db, cats, rfl, hc, ?_⟩⟩
          simp [bom_with_metadata_components]

/-- Per-version level of the order-preservation argument: filtering the
tagged record list then building components agrees with the loop's
filter-then-build over versions. -/
theorem records_versions_eq (catn : String) (pkg : EixPackage)
    (vs : List EixVersion) :
    ((vs.map (fun v => (catn, pkg, v))).filter
        (fun rec => rec.2.2.is_installed)).map
      (fun rec => version_component rec.1 rec.2.1 rec.2.2) =
    (vs.filter (fun v => v.is_installed)).map (version_component catn pkg) := by
  induction vs with
  | nil => rfl
  | cons v vs ih =>
    by_cases h : v.is_installed = true <;>
      simp [List.filter_cons, h, ih]

/-- Per-package level of the order-preservation argument. -/
theorem records_packages_eq (catn : String) (pkgs : List EixPackage) :
    ((pkgs.flatMap (fun pkg =>
        pkg.versions.map (fun v => (catn, pkg, v)))).filter
          (fun rec => rec.2.2.is_installed)).map
      (fun rec => version_component rec.1 rec.2.1 rec.2.2) =
    pkgs.flatMap (fun pkg =>
      (pkg.versions.filter (fun v => v.is_installed)).map
        (version_component catn pkg)) := by
  induction pkgs with
  | nil => rfl
  | cons p ps ih =>
    simp only [List.flatMap_cons, List.filter_append, List.map_append, ih,
      records_versions_eq]

/-- The component list the loop builds is the filter-then-map image of the
flattened record sequence, in the record sequence's order. -/
theorem inventory_components_eq (cats : List EixCategory) :
    inventory_components cats =
      ((all_records cats).filter (fun rec => rec.2.2.is_installed)).map
        (fun rec => version_component rec.1 rec.2.1 rec.2.2) := by
  induction cats with
  | nil => rfl
  | cons cat cs ih =>
    simp only [inventory_components, all_records, List.flatMap_cons,
      List.filter_append, List.map_append] at ih ⊢
    rw [ih, records_packages_eq]

/-- Every component the loop builds has type `"library"`. -/
theorem inventory_components_type (cats : List EixCategory) (comp : Component)
    (hc : comp ∈ inventory_components cats) :
    comp.component_type = "library" := by
  simp only [inventory_components, List.mem_flatMap, List.mem_map,
    List.mem_filter] at hc
  obtain ⟨cat, _, pkg, _, v, _, rfl⟩ := hc
  rfl

/-! ### Claims -/

/-- C1 fails as stated: the pipeline percent-encodes nothing, so the two
distinct records (name `pkg`, version `1@2`) and (name `pkg@1`, version `2`)
in category `app` produce the identical purl string
`pkg:gentoo/app/pkg@1@2?repository=gentoo`; hence no re-parsing can recover
name and version for both, and the spec-modelled parser indeed returns
`("app", "pkg@1", "2")` rather than `("app", "pkg", "1@2")`. -/
theorem purl_roundtrip_counterexample :
    (version_component "app"
        { name := "pkg", description := "", licenses := "", versions := [] }
        { is_installed := true, version_string := "1@2",
          reponame := "gentoo" }).purl =
      (version_component "app"
        { name := "pkg@1", description := "", licenses := "", versions := [] }
        { is_installed := true, version_string := "2",
          reponame := "gentoo" }).purl ∧
    (("pkg" : String), ("1@2" : String)) ≠ ("pkg@1", "2") ∧
    parse_purl (version_component "app"
        { name := "pkg", description := "", licenses := "", versions := [] }
        { is_installed := true, version_string := "1@2",
          reponame := "gentoo" }).purl ≠
      some ("app", "pkg", "1@2") := by
  refine ⟨rfl, by decide, by decide⟩

/-- C1 (amended): for every record the pipeline converts, the generated purl
equals `pkg:gentoo/<category>/<name>@<version>?repository=<reponame>` — the
repository suffix is always appended, since the eix source always supplies a
(possibly empty) repository name — and re-parsing recovers category, name and
version unchanged provided the category contains no `/` and no `?`, the name
no `?`, and the version no `?` and no `@` (no percent-encoding is performed,
so reserved characters in the fields break the round-trip). -/
theorem purl_roundtrip_amended (category : String) (pkg : EixPackage)
    (v : EixVersion)
    (hc1 : '/' ∉ category.data) (hc2 : '?' ∉ category.data)
    (hn : '?' ∉ pkg.name.data)
    (hv1 : '?' ∉ v.version_string.data) (hv2 : '@' ∉ v.version_string.data) :
    (version_component category pkg v).purl =
      "pkg:gentoo/" ++ category ++ "/" ++ pkg.name ++ "@" ++ v.version_string
        ++ "?repository=" ++ v.reponame ∧
    parse_purl (version_component category pkg v).purl =
      some (category, pkg.name, v.version_string) :=
  ⟨rfl, parse_purl_purl_of category pkg.name v.version_string v.reponame
    hc1 hc2 hn hv1 hv2⟩

/-- Witness for C1 (amended) at the sample record. -/
theorem purl_roundtrip_amended_witness :
    ('/' ∉ ("app-misc" : String).data ∧ '?' ∉ ("app-misc" : String).data ∧
      '?' ∉ ("mock-pkg" : String).data ∧ '?' ∉ ("1.2.3" : String).data ∧
      '@' ∉ ("1.2.3" : String).data) ∧
    (version_component "app-misc" sample_package sample_version).purl =
      "pkg:gentoo/app-misc/mock-pkg@1.2.3?repository=gentoo" ∧
    parse_purl
        (version_component "app-misc" sample_package sample_version).purl =
      some ("app-misc", "mock-pkg", "1.2.3") := by
  refine ⟨by decide, rfl, ?_⟩
  exact (purl_roundtrip_amended "app-misc" sample_package sample_version
    (by decide) (by decide) (by decide) (by decide) (by decide)).2

/-- C2: the component built from a record carries exactly one license entry
per space-separated non-empty token of the record's license string, each
entry naming its token verbatim and in order; empty tokens produced by the
split are dropped. -/
theorem license_entries_match_tokens (category : String) (pkg : EixPackage)
    (v : EixVersion) (N : Nat)
    (hN : ((split_spaces pkg.licenses).filter (fun t => t ≠ "")).length = N) :
    (version_component category pkg v).licenses.length = N ∧
    (version_component category pkg v).licenses.map (fun lc => lc.license.name)
      = (split_spaces pkg.licenses).filter (fun t => t ≠ "") := by
  constructor
  · simpa [version_component, licenses_of] using hN
  · simp only [version_component, licenses_of, List.map_map]
    exact List.map_id' _

/-- Witness for C2: the sample license string `"MIT  Apache-2.0"` has two
surviving tokens (the empty token of the double space is dropped) and the
built component has exactly those two license names. -/
theorem license_entries_match_tokens_witness :
    ((split_spaces sample_package.licenses).filter (fun t => t ≠ "")).length
        = 2 ∧
    (version_component "app-misc" sample_package sample_version).licenses.length
        = 2 ∧
    (version_component "app-misc" sample_package
        sample_version).licenses.map (fun lc => lc.license.name) =
      ["MIT", "Apache-2.0"] := by
  refine ⟨by decide, ?_, ?_⟩
  · exact (license_entries_match_tokens "app-misc" sample_package
      sample_version 2 (by decide)).1
  · rw [(license_entries_match_tokens "app-misc" sample_package
      sample_version 2 (by decide)).2]
    decide

/-- C3: when only-master is not set and the inventory reads succeed, the run
returns a document whose component list is exactly the in-order image of the
record sequence: records with the installed flag false are skipped, one
component is built per surviving record, and the list keeps the order the
records were produced in — no sorting, no reordering. -/
theorem components_follow_record_order (fs : String → Except IoError Database)
    (args : Args) (tv : Option String) (cpv now uuid : String)
    (db : Database) (cats : List EixCategory)
    (hm : args.only_master = false)
    (hfs : fs (args.file.getD DEFAULT_EIX_DB_PATH) = Except.ok db)
    (hh : db.header = Except.ok ())
    (hc : db.content = Except.ok cats) :
    ∃ bom, generate_bom fs args tv cpv now uuid = Except.ok bom ∧
      bom.components =
        ((all_records cats).filter (fun rec => rec.2.2.is_installed)).map
          (fun rec => version_component rec.1 rec.2.1 rec.2.2) := by
  refine ⟨{ bom_with_metadata args tv cpv now uuid with
            components :=
              (bom_with_metadata args tv cpv now uuid).components ++
                inventory_components cats }, ?_, ?_⟩
  · simp [generate_bom, hfs, hh, hm, hc]
  · simp [bom_with_metadata_components, inventory_components_eq]

/-- Witness for C3 at the sample inventory: the returned component list is
the filtered, order-preserving image of the sample records. -/
theorem components_follow_record_order_witness :
    args_sample.only_master = false ∧
    (generate_bom fs_sample args_sample (some "0.8.15") "0.1.0" "ts"
        "uu").map (fun bom => bom.components) =
      Except.ok (((all_records [sample_category]).filter
          (fun rec => rec.2.2.is_installed)).map
        (fun rec => version_component rec.1 rec.2.1 rec.2.2)) := by
  refine ⟨rfl, ?_⟩
  obtain ⟨bom, hbom, hcomp⟩ :=
    components_follow_record_order fs_sample args_sample (some "0.8.15")
      "0.1.0" "ts" "uu" ⟨Except.ok (), Except.ok [sample_category]⟩
      [sample_category] rfl rfl rfl rfl
  rw [hbom]
  simpa [Except.map] using hcomp

/-- C4: whenever only-master is set and a document is returned, its component
list is empty, whatever the inventory holds. -/
theorem only_master_yields_no_components
    (fs : String → Except IoError Database) (args : Args)
    (tv : Option String) (cpv now uuid : String) (bom : Bom)
    (hm : args.only_master = true)
    (hok : generate_bom fs args tv cpv now uuid = Except.ok bom) :
    bom.components = [] := by
  cases hfs : fs (args.file.getD DEFAULT_EIX_DB_PATH) with
  | error e => simp [generate_bom, hfs] at hok
  | ok db =>
    cases hh : db.header with
    | error e => simp [generate_bom, hfs, hh] at hok
    | ok u =>
      have hb : bom = bom_with_metadata args tv cpv now uuid := by
        simp [generate_bom, hfs, hh, hm] at hok
        exact hok.symm
      rw [hb]
      exact bom_with_metadata_components args tv cpv now uuid

/-- Witness for C4: with only-master set over the non-empty sample inventory,
the returned document has no components. -/
theorem only_master_yields_no_components_witness :
    args_master.only_master = true ∧
    generate_bom fs_sample args_master none "0.1.0" "ts" "uu" =
      Except.ok (bom_with_metadata args_master none "0.1.0" "ts" "uu") ∧
    (bom_with_metadata args_master none "0.1.0" "ts" "uu").components = [] := by
  refine ⟨rfl, rfl, ?_⟩
  exact only_master_yields_no_components fs_sample args_master none "0.1.0"
    "ts" "uu" _ rfl rfl

/-- C5: whenever a document is returned, its top-level component is present
exactly when one of group, name or version was supplied — then of type
`"application"`, carrying the supplied fields, empty strings for the absent
ones, and no license or purl data — and absent otherwise, in which case the
emitted metadata JSON object carries no `component` key at all (rather than a
null). -/
theorem top_level_component_tristate (fs : String → Except IoError Database)
    (args : Args) (tv : Option String) (cpv now uuid : String) (bom : Bom)
    (hok : generate_bom fs args tv cpv now uuid = Except.ok bom) :
    ((args.group.isSome || args.name.isSome || args.version.isSome) = true →
      bom.metadata.component = some
        { component_type := "application"
          group := args.group.getD ""
          name := args.name.getD ""
          version := args.version.getD ""
          description := ""
          licenses := []
          purl := "" }) ∧
    (args.group = none → args.name = none → args.version = none →
      bom.metadata.component = none ∧
      bom.metadata.toJson = Json.obj
        [("timestamp", Json.str bom.metadata.timestamp),
         ("tools", Json.arr (bom.metadata.tools.map Tool.toJson))] ∧
      "component" ∉ json_keys bom.metadata.toJson) := by
  have hmeta := (generate_bom_ok_cases fs args tv cpv now uuid bom hok).1
  have hcomp : bom.metadata.component =
      (if args.group.isSome || args.name.isSome || args.version.isSome
        then some (top_level_component args) else none) := by
    rw [hmeta]
    exact bom_with_metadata_component args tv cpv now uuid
  constructor
  · intro hsup
    rw [hcomp, if_pos hsup]
    rfl
  · intro hg hn hv
    have hnone : bom.metadata.component = none := by
      rw [hcomp, hg, hn, hv]
      rfl
    refine ⟨hnone, ?_, ?_⟩
    · simp [Metadata.toJson, hnone]
    · simp [Metadata.toJson, hnone, json_keys]

/-- Witness for C5: with only a top-level name supplied the component slot is
filled with name `"x"` and empty strings elsewhere; with nothing supplied the
slot stays `none` and the metadata JSON object has no `component` key. -/
theorem top_level_component_tristate_witness :
    (args_name_only.group.isSome || args_name_only.name.isSome ||
        args_name_only.version.isSome) = true ∧
    (bom_with_metadata args_name_only none "0.1.0" "ts"
        "uu").metadata.component =
      some { component_type := "application", group := "", name := "x",
             version := "", description := "", licenses := [], purl := "" } ∧
    (args_master.group = none ∧ args_master.name = none ∧
      args_master.version = none) ∧
    (bom_with_metadata args_master none "0.1.0" "ts" "uu").metadata.component
        = none ∧
    "component" ∉ json_keys
      (bom_with_metadata args_master none "0.1.0" "ts"
        "uu").metadata.toJson := by
  refine ⟨rfl, ?_, ⟨rfl, rfl, rfl⟩, ?_, ?_⟩
  · exact (top_level_component_tristate fs_sample args_name_only none "0.1.0"
      "ts" "uu" (bom_with_metadata args_name_only none "0.1.0" "ts" "uu")
      rfl).1 rfl
  · exact ((top_level_component_tristate fs_sample args_master none "0.1.0"
      "ts" "uu" (bom_with_metadata args_master none "0.1.0" "ts" "uu")
      rfl).2 rfl rfl rfl).1
  · exact ((top_level_component_tristate fs_sample args_master none "0.1.0"
      "ts" "uu" (bom_with_metadata args_master none "0.1.0" "ts" "uu")
      rfl).2 rfl rfl rfl).2.2

/-- C6: `Bom::with_tool_version` sets the constant format marker and schema
version, a serial number of the form `urn:uuid:<uuid>` with the generated
uuid v4-shaped, document version 1, and a single tool entry with the fixed
vendor/name pair and the supplied tool version string. -/
theorem with_tool_version_fields (tool_version now uuid : String)
    (h : uuid_v4_shape uuid = true) :
    (Bom.with_tool_version tool_version now uuid).bom_format = "CycloneDX" ∧
    (Bom.with_tool_version tool_version now uuid).spec_version = "1.7" ∧
    (Bom.with_tool_version tool_version now uuid).version = 1 ∧
    (Bom.with_tool_version tool_version now uuid).serial_number =
      "urn:uuid:" ++ uuid ∧
    uuid_v4_shape uuid = true ∧
    (Bom.with_tool_version tool_version now uuid).metadata.tools =
      [{ vendor := "cyclonedx-gentoo", name := "cyclonedx-gentoo",
         version := tool_version }] :=
  ⟨rfl, rfl, rfl, rfl, h, rfl⟩

/-- Witness for C6 at a concrete v4-shaped uuid. -/
theorem with_tool_version_fields_witness :
    uuid_v4_shape "f47ac10b-58cc-4372-a567-0e02b2c3d479" = true ∧
    ((Bom.with_tool_version "0.8.15" "ts"
        "f47ac10b-58cc-4372-a567-0e02b2c3d479").bom_format = "CycloneDX" ∧
      (Bom.with_tool_version "0.8.15" "ts"
        "f47ac10b-58cc-4372-a567-0e02b2c3d479").spec_version = "1.7" ∧
      (Bom.with_tool_version "0.8.15" "ts"
        "f47ac10b-58cc-4372-a567-0e02b2c3d479").version = 1 ∧
      (Bom.with_tool_version "0.8.15" "ts"
        "f47ac10b-58cc-4372-a567-0e02b2c3d479").serial_number =
        "urn:uuid:" ++ "f47ac10b-58cc-4372-a567-0e02b2c3d479" ∧
      uuid_v4_shape "f47ac10b-58cc-4372-a567-0e02b2c3d479" = true ∧
      (Bom.with_tool_version "0.8.15" "ts"
        "f47ac10b-58cc-4372-a567-0e02b2c3d479").metadata.tools =
        [{ vendor := "cyclonedx-gentoo", name := "cyclonedx-gentoo",
           version := "0.8.15" }]) :=
  ⟨by decide, with_tool_version_fields "0.8.15" "ts"
    "f47ac10b-58cc-4372-a567-0e02b2c3d479" (by decide)⟩

/-- C7: two document builds whose identity-generator outputs differ have
different serial numbers, while the format marker and schema version
constants coincide. -/
theorem serial_fresh_constants_fixed (tv1 tv2 now1 now2 u1 u2 : String)
    (h : u1 ≠ u2) :
    (Bom.with_tool_version tv1 now1 u1).serial_number ≠
      (Bom.with_tool_version tv2 now2 u2).serial_number ∧
    (Bom.with_tool_version tv1 now1 u1).bom_format =
      (Bom.with_tool_version tv2 now2 u2).bom_format ∧
    (Bom.with_tool_version tv1 now1 u1).spec_version =
      (Bom.with_tool_version tv2 now2 u2).spec_version := by
  refine ⟨?_, rfl, rfl⟩
  intro he
  apply h
  have he2 : ("urn:uuid:" ++ u1) = "urn:uuid:" ++ u2 := he
  have hd := congrArg String.data he2
  simp only [String.data_append] at hd
  exact String.ext (List.append_cancel_left hd)

/-- Witness for C7 at two distinct uuid strings. -/
theorem serial_fresh_constants_fixed_witness :
    ("a" : String) ≠ "b" ∧
    ((Bom.with_tool_version "1" "t1" "a").serial_number ≠
      (Bom.with_tool_version "2" "t2" "b").serial_number ∧
    (Bom.with_tool_version "1" "t1" "a").bom_format =
      (Bom.with_tool_version "2" "t2" "b").bom_format ∧
    (Bom.with_tool_version "1" "t1" "a").spec_version =
      (Bom.with_tool_version "2" "t2" "b").spec_version) :=
  ⟨by decide, serial_fresh_constants_fixed "1" "2" "t1" "t2" "a" "b"
    (by decide)⟩

/-- C8: in every document the pipeline returns, every component of the
component list has type `"library"`, and the top-level component, when
present, has type `"application"` and never occurs in the component list —
it lives only in the metadata slot. -/
theorem component_types_invariant (fs : String → Except IoError Database)
    (args : Args) (tv : Option String) (cpv now uuid : String) (bom : Bom)
    (hok : generate_bom fs args tv cpv now uuid = Except.ok bom) :
    (∀ comp ∈ bom.components, comp.component_type = "library") ∧
    (∀ tc, bom.metadata.component = some tc →
      tc.component_type = "application" ∧ tc ∉ bom.components) := by
  obtain ⟨hmeta, hcs⟩ := generate_bom_ok_cases fs args tv cpv now uuid bom hok
  have hlib : ∀ comp ∈ bom.components, comp.component_type = "library" := by
    rcases hcs with h | ⟨db, cats, _, _, h⟩
    · simp [h]
    · rw [h]
      exact inventory_components_type cats
  refine ⟨hlib, ?_⟩
  intro tc htc
  have happ : tc.component_type = "application" := by
    rw [hmeta, bom_with_metadata_component] at htc
    split at htc
    · injection htc with h
      rw [← h]
      rfl
    · cases htc
  refine ⟨happ, ?_⟩
  intro hmem
  have hl := hlib tc hmem
  rw [happ] at hl
  exact absurd hl (by decide)

/-- Witness for C8 at the sample run: the single listed component has type
`"library"`, and the attached top-level component has type `"application"`
and is not in the list. -/
theorem component_types_invariant_witness :
    (version_component "app-misc" sample_package
        sample_version).component_type = "library" ∧
    (top_level_component args_sample).component_type = "application" := by
  have h := component_types_invariant fs_sample args_sample (some "0.8.15")
    "0.1.0" "ts" "uu" _ rfl
  exact ⟨h.1 _ (by decide), (h.2 (top_level_component args_sample) rfl).1⟩

/-- C9: a run returns an I/O error exactly when the inventory cannot be
opened or read — the open itself, the header read, or (when the component
loop runs) the content read — and the error is the one the reader produced,
unchanged; in every other situation a document is produced, so
malformed-but-readable records never raise an error. -/
theorem error_propagation_characterization
    (fs : String → Except IoError Database) (args : Args)
    (tv : Option String) (cpv now uuid : String) (e : IoError) :
    generate_bom fs args tv cpv now uuid = Except.error e ↔
      (fs (args.file.getD DEFAULT_EIX_DB_PATH) = Except.error e ∨
        ∃ db, fs (args.file.getD DEFAULT_EIX_DB_PATH) = Except.ok db ∧
          (db.header = Except.error e ∨
            (db.header = Except.ok () ∧ args.only_master = false ∧
              db.content = Except.error e))) := by
  cases hfs : fs (args.file.getD DEFAULT_EIX_DB_PATH) with
  | error e2 => simp [generate_bom, hfs]
  | ok db =>
    cases hh : db.header with
    | error e2 => simp [generate_bom, hfs, hh]
    | ok u =>
      cases u
      by_cases hm : args.only_master = true
      · simp [generate_bom, hfs, hh, hm]
      · cases hc : db.content with
        | error e2 => simp [generate_bom, hfs, hh, hm, hc]
        | ok cats => simp [generate_bom, hfs, hh, hm, hc]

/-- C10: the database is opened and its header read before the only-master
flag is consulted: an unopenable or unreadable inventory location fails the
run with the reader's I/O error even when only-master is set and no
component would ever be read. -/
theorem header_read_before_master_check
    (fs : String → Except IoError Database) (args : Args)
    (tv : Option String) (cpv now uuid : String) (e : IoError)
    (hm : args.only_master = true) :
    (fs (args.file.getD DEFAULT_EIX_DB_PATH) = Except.error e →
      generate_bom fs args tv cpv now uuid = Except.error e) ∧
    (∀ db, fs (args.file.getD DEFAULT_EIX_DB_PATH) = Except.ok db →
      db.header = Except.error e →
      generate_bom fs args tv cpv now uuid = Except.error e) := by
  constructor
  · intro hfs
    simp [generate_bom, hfs]
  · intro db hfs hh
    simp [generate_bom, hfs, hh]

/-- Witness for C10: with only-master set, a failing open and a failing
header read each surface their error. -/
theorem header_read_before_master_check_witness :
    args_master.only_master = true ∧
    fs_fail (args_master.file.getD DEFAULT_EIX_DB_PATH) =
      Except.error "open failed" ∧
    generate_bom fs_fail args_master none "0.1.0" "ts" "uu" =
      Except.error "open failed" ∧
    fs_header_fail (args_master.file.getD DEFAULT_EIX_DB_PATH) =
      Except.ok ⟨Except.error "header failed", Except.ok []⟩ ∧
    generate_bom fs_header_fail args_master none "0.1.0" "ts" "uu" =
      Except.error "header failed" := by
  refine ⟨rfl, rfl, ?_, rfl, ?_⟩
  · exact (header_read_before_master_check fs_fail args_master none "0.1.0"
      "ts" "uu" "open failed" rfl).1 rfl
  · exact (header_read_before_master_check fs_header_fail args_master none
      "0.1.0" "ts" "uu" "header failed" rfl).2
      ⟨Except.error "header failed", Except.ok []⟩ rfl rfl
